import Mathlib

/-!
Verification of the Chronicle client (src/src/App.tsx) state-management core.

The data model mirrors the interfaces in the types module (Photo, SubTask,
BigGoal, DiaryEntry).  Each store operation is a direct transcription of the
corresponding state-updater in App.tsx, with the pieces of React component
state it reads (draft title, draft photos, selected date) and the two
environment effects (Math.random id generation, Date.now clock) passed as
explicit arguments.  JavaScript findIndex returning -1 is rendered as
List.findIdx returning the length; the branch test existingIndex >= 0
becomes existingIndex < length.
-/

namespace Chronicle

/-- JavaScript `String.prototype.trim`, embedded structurally: drop leading
and trailing whitespace characters from the character list.  (Lean's own
`String.trim` is extensionally the same on the inputs used here but is
defined by well-founded recursion over byte positions, which the kernel
cannot evaluate; this structural form keeps the guard computable.) -/
def jsTrim (s : String) : String :=
  ⟨((s.data.dropWhile Char.isWhitespace).reverse.dropWhile Char.isWhitespace).reverse⟩

structure Photo where
  id : String
  url : String
  timestamp : Nat
  deriving Repr, DecidableEq, Inhabited

structure SubTask where
  id : String
  title : String
  completed : Bool
  photos : List Photo
  createdAt : Nat
  deriving Repr, DecidableEq, Inhabited

structure BigGoal where
  id : String
  title : String
  completed : Bool
  photos : List Photo
  subTasks : List SubTask
  createdAt : Nat
  deriving Repr, DecidableEq, Inhabited

structure DiaryEntry where
  id : String
  content : String
  photos : List Photo
  date : String
  createdAt : Nat
  deriving Repr, DecidableEq, Inhabited

/-- App.tsx `addGoal` (lines 199-212): guard on the trimmed draft title, then
prepend a goal with `completed := false`, the draft photos and no subtasks.
`newGoalTitle` and `tempPhotos` are the component-state reads, `freshId` the
Math.random id, `now` the Date.now stamp. -/
def addGoal (newGoalTitle : String) (tempPhotos : List Photo) (freshId : String)
    (now : Nat) (goals : List BigGoal) : List BigGoal :=
  if jsTrim newGoalTitle = "" then goals
  else
    { id := freshId, title := newGoalTitle, completed := false,
      photos := tempPhotos, subTasks := [], createdAt := now } :: goals

/-- App.tsx `addSubTask` (lines 214-232): guard on the trimmed draft title for
this goal, then map over the goals appending a fresh subtask to the matching
one.  An absent `subTaskInputs[goalId]` behaves like the empty string. -/
def addSubTask (goalId : String) (title : String) (photos : List Photo)
    (freshId : String) (now : Nat) (goals : List BigGoal) : List BigGoal :=
  if jsTrim title = "" then goals
  else
    goals.map fun g =>
      if g.id = goalId then
        { g with subTasks := g.subTasks ++
            [{ id := freshId, title := title, completed := false,
               photos := photos, createdAt := now }] }
      else g

/-- App.tsx `toggleGoal` (lines 234-236). -/
def toggleGoal (id : String) (goals : List BigGoal) : List BigGoal :=
  goals.map fun g => if g.id = id then { g with completed := !g.completed } else g

/-- App.tsx `toggleSubTask` (lines 238-245). -/
def toggleSubTask (goalId : String) (subTaskId : String)
    (goals : List BigGoal) : List BigGoal :=
  goals.map fun g =>
    if g.id = goalId then
      { g with subTasks := g.subTasks.map fun st =>
          if st.id = subTaskId then { st with completed := !st.completed } else st }
    else g

/-- App.tsx `deleteGoal` (lines 247-249). -/
def deleteGoal (id : String) (goals : List BigGoal) : List BigGoal :=
  goals.filter fun g => g.id ≠ id

/-- App.tsx `deleteSubTask` (lines 251-258). -/
def deleteSubTask (goalId : String) (subTaskId : String)
    (goals : List BigGoal) : List BigGoal :=
  goals.map fun g =>
    if g.id = goalId then
      { g with subTasks := g.subTasks.filter fun st => st.id ≠ subTaskId }
    else g

/-- App.tsx `saveDiaryEntry` (lines 260-284): no-op when the trimmed draft
content is empty and the draft photo list is empty; otherwise find the index
of the entry for the selected date (JS findIndex; -1-means-absent is rendered
as length-means-absent), build the new entry reusing the existing id when one
was found or `freshId` otherwise, and either replace in place or prepend. -/
def saveDiaryEntry (selectedDate : String) (diaryContent : String)
    (tempPhotos : List Photo) (freshId : String) (now : Nat)
    (diaryEntries : List DiaryEntry) : List DiaryEntry :=
  if jsTrim diaryContent = "" ∧ tempPhotos.length = 0 then diaryEntries
  else
    let dateStr := selectedDate
    let existingIndex := diaryEntries.findIdx fun e => e.date == dateStr
    let newEntry : DiaryEntry :=
      { id := if h : existingIndex < diaryEntries.length
              then (diaryEntries.get ⟨existingIndex, h⟩).id
              else freshId,
        content := diaryContent,
        photos := tempPhotos,
        date := dateStr,
        createdAt := now }
    if existingIndex < diaryEntries.length then
      diaryEntries.set existingIndex newEntry
    else
      newEntry :: diaryEntries

/-- What a persisted slice looks like when the load effect reads its key:
the key can be missing (`localStorage.getItem` returns null), present but
malformed (`JSON.parse` throws), or present and parsing to a value. -/
inductive StoredSlice (α : Type) where
  | absent : StoredSlice α
  | corrupt : StoredSlice α
  | value : α → StoredSlice α
  deriving Repr, DecidableEq

/-- The three in-memory slices hydrated by the load effect, with their
`useState` defaults (lines 132-134). -/
structure HydratedState where
  goals : List BigGoal
  diaryEntries : List DiaryEntry
  isSubscribed : Bool
  deriving Repr, DecidableEq, Inhabited

/-- One statement of the load effect: `if (saved) setX(JSON.parse(saved))`.
Absent key leaves the current slice value; a corrupt value makes JSON.parse
throw, which aborts the whole effect. -/
def hydrateSlice {α : Type} (cur : α) : StoredSlice α → Except Unit α
  | .absent => .ok cur
  | .corrupt => .error ()
  | .value v => .ok v

/-- App.tsx load `useEffect` (lines 151-159): three sequential statements, in
source order goals, diary, subscription, each of which can throw.  A thrown
`JSON.parse` error propagates out of the effect, so statements after the
throwing one never run. -/
def loadEffect (savedGoals : StoredSlice (List BigGoal))
    (savedDiary : StoredSlice (List DiaryEntry))
    (savedSub : StoredSlice Bool) : Except Unit HydratedState :=
  match hydrateSlice ([] : List BigGoal) savedGoals with
  | .error e => .error e
  | .ok gs =>
    match hydrateSlice ([] : List DiaryEntry) savedDiary with
    | .error e => .error e
    | .ok ds =>
      match hydrateSlice false savedSub with
      | .error e => .error e
      | .ok sub => .ok { goals := gs, diaryEntries := ds, isSubscribed := sub }

/-- The value a slice would take if its statement ran in isolation:
default when absent or corrupt, the parsed value otherwise.  This is the
spec's per-slice "parse or fall back to the empty default" reading. -/
def hydrateOr {α : Type} (dflt : α) : StoredSlice α → α
  | .absent => dflt
  | .corrupt => dflt
  | .value v => v

/-- The component state touched by the photo-removal click handlers, plus the
persisted slices, so frame conditions on the persisted data can be stated.
`subTaskPhotos` is the JS record keyed by goal id; an absent key behaves as
the empty list (the source reads it as `prev[goalId] || []`). -/
structure UIState where
  goals : List BigGoal
  diaryEntries : List DiaryEntry
  tempPhotos : List Photo
  subTaskPhotos : String → List Photo

/-- The photo-removal intents the view offers.  `PhotoGrid` receives an
`onRemove` callback only for the two draft collections: `tempPhotos`
(goal-input grid, lines 405-408, and diary-editor grid, lines 594-597) and
`subTaskPhotos[goalId]` (lines 525-531).  The grids over persisted photos
(`goal.photos` line 458, `st.photos` line 488) are rendered with no
`onRemove`, so no intent targets a persisted collection. -/
inductive RemoveIntent where
  | temp : String → RemoveIntent
  | subTaskDraft : String → String → RemoveIntent
  deriving Repr, DecidableEq

/-- The two `onRemove` closures, transcribed:
`setTempPhotos(prev => prev.filter(p => p.id !== id))` and
`setSubTaskPhotos(prev => ({...prev, [goal.id]: prev[goal.id].filter(p => p.id !== id)}))`. -/
def applyRemove : RemoveIntent → UIState → UIState
  | .temp pid, s =>
      { s with tempPhotos := s.tempPhotos.filter fun p => p.id ≠ pid }
  | .subTaskDraft gid pid, s =>
      { s with subTaskPhotos := fun k =>
          if k = gid then (s.subTaskPhotos gid).filter (fun p => p.id ≠ pid)
          else s.subTaskPhotos k }

/-- A sequence of `addGoal` calls: for each tuple, the draft title typed in,
the draft photos attached, the generated id and the clock reading. -/
def addGoalSeq (calls : List (String × List Photo × String × Nat))
    (goals : List BigGoal) : List BigGoal :=
  calls.foldl (fun gs c => addGoal c.1 c.2.1 c.2.2.1 c.2.2.2 gs) goals

/-- A sequence of `saveDiaryEntry` calls on one fixed selected date: for each
tuple, the draft content, draft photos, generated id and clock reading. -/
def saveSeq (selectedDate : String) (calls : List (String × List Photo × String × Nat))
    (diaryEntries : List DiaryEntry) : List DiaryEntry :=
  calls.foldl (fun es c => saveDiaryEntry selectedDate c.1 c.2.1 c.2.2.1 c.2.2.2 es)
    diaryEntries

/-! ### Helper lemmas about the toggle operations

The per-element updaters inside `toggleGoal` / `toggleSubTask` get names so
that rewriting can talk about them; the `_eq_map` lemmas record (by `rfl`)
that the operations are exactly maps of these updaters. -/

/-- The subtask updater inside `toggleSubTask`. -/
def flipSubTask (sid : String) (st : SubTask) : SubTask :=
  if st.id = sid then { st with completed := !st.completed } else st

/-- The goal updater inside `toggleSubTask`. -/
def flipGoalSub (gid sid : String) (g : BigGoal) : BigGoal :=
  if g.id = gid then { g with subTasks := g.subTasks.map (flipSubTask sid) } else g

/-- The goal updater inside `toggleGoal`. -/
def flipGoal (gid : String) (g : BigGoal) : BigGoal :=
  if g.id = gid then { g with completed := !g.completed } else g

theorem toggleGoal_eq_map (gid : String) (goals : List BigGoal) :
    toggleGoal gid goals = goals.map (flipGoal gid) := rfl

theorem toggleSubTask_eq_map (gid sid : String) (goals : List BigGoal) :
    toggleSubTask gid sid goals = goals.map (flipGoalSub gid sid) := rfl

theorem flipSubTask_flipSubTask (sid : String) (st : SubTask) :
    flipSubTask sid (flipSubTask sid st) = st := by
  obtain ⟨a, b, c, d, e⟩ := st
  by_cases h : a = sid
  · subst h; simp [flipSubTask, Bool.not_not]
  · simp [flipSubTask, h]

theorem flipGoal_flipGoal (gid : String) (g : BigGoal) :
    flipGoal gid (flipGoal gid g) = g := by
  obtain ⟨a, b, c, d, e, f⟩ := g
  by_cases h : a = gid
  · subst h; simp [flipGoal, Bool.not_not]
  · simp [flipGoal, h]

theorem flipGoalSub_flipGoalSub (gid sid : String) (g : BigGoal) :
    flipGoalSub gid sid (flipGoalSub gid sid g) = g := by
  obtain ⟨a, b, c, d, s, e⟩ := g
  by_cases h : a = gid
  · subst h
    simp [flipGoalSub]
    exact (List.map_congr_left fun st _ => flipSubTask_flipSubTask sid st).trans
      (List.map_id' s)
  · simp [flipGoalSub, h]

/-- Pointwise description of `toggleGoal`: every goal keeps all fields except
that `completed` is negated exactly on an id match. -/
theorem toggleGoal_pointwise (gid : String) (goals : List BigGoal) :
    List.Forall₂ (fun g2 g : BigGoal =>
        g2.id = g.id ∧ g2.title = g.title ∧ g2.photos = g.photos ∧
        g2.subTasks = g.subTasks ∧ g2.createdAt = g.createdAt ∧
        g2.completed = (if g.id = gid then !g.completed else g.completed))
      (toggleGoal gid goals) goals := by
  rw [toggleGoal_eq_map, List.forall₂_map_left_iff]
  refine List.forall₂_same.2 fun g _ => ?_
  by_cases h : g.id = gid <;> simp [flipGoal, h]

/-- Pointwise description of `toggleSubTask`: every goal keeps id, title,
photos, createdAt and its own `completed`; each subtask keeps all fields
except that `completed` is negated exactly when both ids match. -/
theorem toggleSubTask_pointwise (gid sid : String) (goals : List BigGoal) :
    List.Forall₂ (fun g2 g : BigGoal =>
        g2.id = g.id ∧ g2.title = g.title ∧ g2.photos = g.photos ∧
        g2.createdAt = g.createdAt ∧ g2.completed = g.completed ∧
        List.Forall₂ (fun st2 st : SubTask =>
            st2.id = st.id ∧ st2.title = st.title ∧ st2.photos = st.photos ∧
            st2.createdAt = st.createdAt ∧
            st2.completed =
              (if g.id = gid ∧ st.id = sid then !st.completed else st.completed))
          g2.subTasks g.subTasks)
      (toggleSubTask gid sid goals) goals := by
  rw [toggleSubTask_eq_map, List.forall₂_map_left_iff]
  refine List.forall₂_same.2 fun g _ => ?_
  by_cases h : g.id = gid
  · refine ⟨by simp [flipGoalSub, h], by simp [flipGoalSub, h], by simp [flipGoalSub, h],
      by simp [flipGoalSub, h], by simp [flipGoalSub, h], ?_⟩
    have hsub : (flipGoalSub gid sid g).subTasks = g.subTasks.map (flipSubTask sid) := by
      simp [flipGoalSub, h]
    rw [hsub, List.forall₂_map_left_iff]
    refine List.forall₂_same.2 fun st _ => ?_
    by_cases hs : st.id = sid <;> simp [flipSubTask, hs, h]
  · refine ⟨by simp [flipGoalSub, h], by simp [flipGoalSub, h], by simp [flipGoalSub, h],
      by simp [flipGoalSub, h], by simp [flipGoalSub, h], ?_⟩
    have hsub : (flipGoalSub gid sid g).subTasks = g.subTasks := by
      simp [flipGoalSub, h]
    rw [hsub]
    refine List.forall₂_same.2 fun st _ => ?_
    simp [h]

/-- `toggleGoal` applied twice with the same id is the identity. -/
theorem toggleGoal_involutive (gid : String) (goals : List BigGoal) :
    toggleGoal gid (toggleGoal gid goals) = goals := by
  rw [toggleGoal_eq_map, toggleGoal_eq_map, List.map_map]
  exact (List.map_congr_left fun g _ => flipGoal_flipGoal gid g).trans
    (List.map_id' goals)

/-- `toggleSubTask` applied twice with the same ids is the identity. -/
theorem toggleSubTask_involutive (gid sid : String) (goals : List BigGoal) :
    toggleSubTask gid sid (toggleSubTask gid sid goals) = goals := by
  rw [toggleSubTask_eq_map, toggleSubTask_eq_map, List.map_map]
  exact (List.map_congr_left fun g _ => flipGoalSub_flipGoalSub gid sid g).trans
    (List.map_id' goals)

/-- `toggleGoal` with an id that no goal carries is a no-op. -/
theorem toggleGoal_not_found (gid : String) (goals : List BigGoal)
    (h : ∀ g ∈ goals, g.id ≠ gid) : toggleGoal gid goals = goals := by
  rw [toggleGoal_eq_map]
  exact (List.map_congr_left fun g hg => by simp [flipGoal, h g hg]).trans
    (List.map_id' goals)

/-- `toggleSubTask` with ids that no (goal, subtask) pair carries is a no-op:
this covers both a missing goal id and a missing subtask id. -/
theorem toggleSubTask_not_found (gid sid : String) (goals : List BigGoal)
    (h : ∀ g ∈ goals, g.id = gid → ∀ st ∈ g.subTasks, st.id ≠ sid) :
    toggleSubTask gid sid goals = goals := by
  rw [toggleSubTask_eq_map]
  refine (List.map_congr_left fun g hg => ?_).trans (List.map_id' goals)
  by_cases hgid : g.id = gid
  · have hmap : g.subTasks.map (flipSubTask sid) = g.subTasks :=
      (List.map_congr_left fun st hst => by
        simp [flipSubTask, h g hg hgid st hst]).trans (List.map_id' g.subTasks)
    obtain ⟨a, b, c, d, s, e⟩ := g
    simp only [flipGoalSub, if_pos hgid]
    simpa using hmap
  · simp [flipGoalSub, hgid]

/-! ### Helper lemmas about `saveDiaryEntry` -/

/-- When no entry for the selected date exists, a valid save prepends a fresh
entry. -/
theorem save_of_not_found (D c : String) (p : List Photo) (fid : String) (t : Nat)
    (l : List DiaryEntry) (hv : ¬(jsTrim c = "" ∧ p.length = 0))
    (h : ∀ e ∈ l, e.date ≠ D) :
    saveDiaryEntry D c p fid t l =
      { id := fid, content := c, photos := p, date := D, createdAt := t } :: l := by
  have hv2 : ¬(jsTrim c = "" ∧ p = []) := by simpa using hv
  have hidx : l.findIdx (fun e => e.date == D) = l.length :=
    List.findIdx_eq_length_of_false fun e he => by simpa using h e he
  simp [saveDiaryEntry, hv2, hidx]

/-- When the head entry is for the selected date, a valid save replaces the
head, keeping its id. -/
theorem save_of_head_match (D c : String) (p : List Photo) (fid : String) (t : Nat)
    (e : DiaryEntry) (l : List DiaryEntry) (hv : ¬(jsTrim c = "" ∧ p.length = 0))
    (h : e.date = D) :
    saveDiaryEntry D c p fid t (e :: l) =
      { id := e.id, content := c, photos := p, date := D, createdAt := t } :: l := by
  have hv2 : ¬(jsTrim c = "" ∧ p = []) := by simpa using hv
  have hidx : (e :: l).findIdx (fun x => x.date == D) = 0 := by
    simp [List.findIdx_cons, h]
  simp [saveDiaryEntry, hv2, hidx]

/-- When the head entry is not for the selected date but some later entry is,
a valid save leaves the head alone and acts on the tail. -/
theorem save_of_head_not_match (D c : String) (p : List Photo) (fid : String) (t : Nat)
    (e : DiaryEntry) (l : List DiaryEntry) (hv : ¬(jsTrim c = "" ∧ p.length = 0))
    (h : ¬(e.date = D)) (hex : ∃ x ∈ l, x.date = D) :
    saveDiaryEntry D c p fid t (e :: l) = e :: saveDiaryEntry D c p fid t l := by
  have hv2 : ¬(jsTrim c = "" ∧ p = []) := by simpa using hv
  have hfalse : (e.date == D) = false := by simpa using h
  have hlt : l.findIdx (fun x => x.date == D) < l.length :=
    List.findIdx_lt_length_of_exists (by simpa using hex)
  have hidx : (e :: l).findIdx (fun x => x.date == D) =
      l.findIdx (fun x => x.date == D) + 1 := by
    simp [List.findIdx_cons, hfalse]
  simp [saveDiaryEntry, hv2, hidx, hlt, Nat.succ_lt_succ hlt]

/-- When some entry for the selected date exists, a valid save replaces the
first one in place, keeping its id. -/
theorem save_of_found (D c : String) (p : List Photo) (fid : String) (t : Nat)
    (l : List DiaryEntry) (hv : ¬(jsTrim c = "" ∧ p.length = 0))
    (hlt : l.findIdx (fun e => e.date == D) < l.length) :
    saveDiaryEntry D c p fid t l =
      l.set (l.findIdx fun e => e.date == D)
        { id := (l.get ⟨l.findIdx (fun e => e.date == D), hlt⟩).id,
          content := c, photos := p, date := D, createdAt := t } := by
  have hv2 : ¬(jsTrim c = "" ∧ p = []) := by simpa using hv
  simp [saveDiaryEntry, hv2, hlt]

/-- A valid save on a list with at most one entry for the selected date
leaves exactly one entry for that date. -/
theorem save_countP_eq_one (D c : String) (p : List Photo) (fid : String) (t : Nat)
    (l : List DiaryEntry) (hv : ¬(jsTrim c = "" ∧ p.length = 0))
    (hinv : l.countP (fun e => e.date == D) ≤ 1) :
    (saveDiaryEntry D c p fid t l).countP (fun e => e.date == D) = 1 := by
  induction l with
  | nil =>
    rw [save_of_not_found D c p fid t [] hv (by simp)]
    simp
  | cons e l ih =>
    by_cases hd : e.date = D
    · rw [save_of_head_match D c p fid t e l hv hd]
      have h0 : l.countP (fun x => x.date == D) = 0 := by
        rw [List.countP_cons_of_pos _ _ (by simpa using hd)] at hinv
        omega
      simp [List.countP_cons, h0]
    · by_cases hex : ∃ x ∈ l, x.date = D
      · rw [save_of_head_not_match D c p fid t e l hv hd hex]
        rw [List.countP_cons_of_neg _ _ (by simpa using hd)] at hinv ⊢
        exact ih hinv
      · push_neg at hex
        rw [save_of_not_found D c p fid t (e :: l) hv
          (fun x hx => by
            rcases List.mem_cons.1 hx with h1 | h1
            · subst h1; exact hd
            · exact hex x h1)]
        have h0 : (e :: l).countP (fun x => x.date == D) = 0 := by
          rw [List.countP_eq_zero]
          intro x hx
          rcases List.mem_cons.1 hx with h1 | h1
          · subst h1; simpa using hd
          · simpa using hex x h1
        simp [List.countP_cons, h0]

/-- Any nonempty run of valid saves on one date leaves exactly one entry for
that date. -/
theorem saveSeq_countP_eq_one (D : String)
    (calls : List (String × List Photo × String × Nat)) (l : List DiaryEntry)
    (hne : calls ≠ [])
    (hva : ∀ cl ∈ calls, ¬(jsTrim cl.1 = "" ∧ cl.2.1.length = 0))
    (hinv : l.countP (fun e => e.date == D) ≤ 1) :
    (saveSeq D calls l).countP (fun e => e.date == D) = 1 := by
  induction calls generalizing l with
  | nil => exact absurd rfl hne
  | cons c cs ih =>
    have h1 : (saveDiaryEntry D c.1 c.2.1 c.2.2.1 c.2.2.2 l).countP
        (fun e => e.date == D) = 1 :=
      save_countP_eq_one D c.1 c.2.1 c.2.2.1 c.2.2.2 l
        (hva c (List.mem_cons_self c cs)) hinv
    rcases eq_or_ne cs [] with hcs | hcs
    · subst hcs
      simpa [saveSeq] using h1
    · have hstep : saveSeq D (c :: cs) l =
          saveSeq D cs (saveDiaryEntry D c.1 c.2.1 c.2.2.1 c.2.2.2 l) := rfl
      rw [hstep]
      exact ih _ hcs (fun cl hcl => hva cl (List.mem_cons_of_mem c hcl)) (le_of_eq h1)

/-- With at most one entry for the date, an entry for the date sitting at
index `i` is the first match, so `findIdx` lands on `i`. -/
theorem findIdx_eq_of_unique (D : String) (l : List DiaryEntry) (i : Nat)
    (hi : i < l.length) (hmatch : (l.get ⟨i, hi⟩).date = D)
    (hinv : l.countP (fun e => e.date == D) ≤ 1) :
    l.findIdx (fun e => e.date == D) = i := by
  induction l generalizing i with
  | nil => exact absurd hi (by simp)
  | cons e l ih =>
    cases i with
    | zero =>
      have he : e.date = D := by simpa using hmatch
      simp [List.findIdx_cons, he]
    | succ n =>
      have hn : n < l.length := by simpa using hi
      have hm : (l.get ⟨n, hn⟩).date = D := by simpa using hmatch
      have hpos : 0 < l.countP (fun e => e.date == D) :=
        List.countP_pos_iff.2 ⟨l.get ⟨n, hn⟩, l.get_mem _ _, by simpa using hm⟩
      have hne : ¬(e.date = D) := by
        intro hcontra
        rw [List.countP_cons_of_pos _ _ (by simpa using hcontra)] at hinv
        omega
      have htail : l.countP (fun e => e.date == D) ≤ 1 := by
        rw [List.countP_cons_of_neg _ _ (by simpa using hne)] at hinv
        exact hinv
      simp only [List.findIdx_cons, (by simpa using hne : ((e.date == D) : Bool) = false),
        cond_false]
      rw [ih n hn hm htail]

/-- An element written at a valid index is a member of the updated list. -/
theorem mem_set_self {α : Type} (l : List α) (i : Nat) (a : α)
    (h : i < l.length) : a ∈ l.set i a := by
  have h2 : i < (l.set i a).length := by simpa using h
  have hmem := List.getElem_mem h2
  rwa [List.getElem_set_self h2] at hmem

/-! ### Concrete fixtures for the closed statements below -/

/-- A concrete diary entry for 2024-01-15. -/
def entryJan : DiaryEntry :=
  { id := "e1", content := "Practiced", photos := [], date := "2024-01-15",
    createdAt := 5 }

/-- A concrete photo. -/
def photoP1 : Photo := { id := "p1", url := "u", timestamp := 0 }

/-- A concrete goal that owns `photoP1` and one subtask `s1`. -/
def goalG1 : BigGoal :=
  { id := "g1", title := "Learn piano", completed := false, photos := [photoP1],
    subTasks := [{ id := "s1", title := "Scales", completed := false,
                   photos := [], createdAt := 0 }],
    createdAt := 0 }

/-- A concrete goal with no subtasks and no photos. -/
def goalEmpty : BigGoal :=
  { id := "g1", title := "Learn piano", completed := false, photos := [],
    subTasks := [], createdAt := 0 }

/-- A concrete UI state in which only the persisted goal `goalG1` holds a
photo. -/
def uiState0 : UIState :=
  { goals := [goalG1], diaryEntries := [], tempPhotos := [],
    subTaskPhotos := fun _ => [] }

/-! ### The claims -/

/-- C1 (counterexample): with a corrupt stored goals value and a parseable
stored diary value, the load effect neither initializes the goals slice to
its default silently nor hydrates the diary slice: the `JSON.parse`
exception escapes the effect, so the corruption is surfaced and the other
slices are blocked. -/
theorem C1_counterexample :
    loadEffect .corrupt (.value [entryJan]) .absent = Except.error () ∧
    loadEffect .corrupt (.value [entryJan]) .absent ≠
      Except.ok { goals := [], diaryEntries := [entryJan], isSubscribed := false } :=
  ⟨rfl, by simp [loadEffect, hydrateSlice]⟩

/-- C1 (amended): absent stored values do degrade to the empty defaults
without affecting the other slices, and parseable values hydrate; but if any
stored value is unparseable, `JSON.parse` throws and the whole load effect
aborts with the error — nothing is hydrated, including parseable slices
whose statements come after the corrupt one. -/
theorem C1_load (g : StoredSlice (List BigGoal)) (d : StoredSlice (List DiaryEntry))
    (s : StoredSlice Bool) :
    (g = .corrupt ∨ d = .corrupt ∨ s = .corrupt →
      loadEffect g d s = Except.error ()) ∧
    (g ≠ .corrupt → d ≠ .corrupt → s ≠ .corrupt →
      loadEffect g d s =
        Except.ok { goals := hydrateOr [] g, diaryEntries := hydrateOr [] d,
                    isSubscribed := hydrateOr false s }) := by
  cases g <;> cases d <;> cases s <;>
    simp [loadEffect, hydrateSlice, hydrateOr]

/-- Closed instance of `C1_load`: an all-absent store loads the defaults,
and a corrupt goals value aborts the effect. -/
theorem C1_load_witness :
    loadEffect .corrupt .absent .absent = Except.error () ∧
    loadEffect (.value [goalG1]) .absent .absent =
      Except.ok { goals := [goalG1], diaryEntries := [], isSubscribed := false } :=
  ⟨(C1_load .corrupt .absent .absent).1 (Or.inl rfl),
   (C1_load (.value [goalG1]) .absent .absent).2 (by decide) (by decide) (by decide)⟩

/-- C3 (counterexample): the photo `photoP1` is held by the persisted
collection `goalG1.photos`, yet neither removal intent the view offers
removes it — each leaves the goals slice untouched, so no `removePhoto`
reaches a persisted collection. -/
theorem C3_counterexample :
    photoP1 ∈ goalG1.photos ∧
    (applyRemove (.temp "p1") uiState0).goals = [goalG1] ∧
    (applyRemove (.subTaskDraft "g1" "p1") uiState0).goals = [goalG1] :=
  ⟨by decide, rfl, rfl⟩

/-- C3 (amended): a removal intent removes the photos bearing the given id
from the pending (draft) collection it targets and leaves the other pending
collection untouched; the persisted collections (the goals slice with each
goal's and subtask's photos, and the diary slice) are unchanged by every
removal intent, because the view wires no removal for them. -/
theorem C3_removePhoto (i : RemoveIntent) (s : UIState) :
    (applyRemove i s).goals = s.goals ∧
    (applyRemove i s).diaryEntries = s.diaryEntries ∧
    (match i with
     | .temp pid =>
        (applyRemove i s).tempPhotos = s.tempPhotos.filter (fun p => p.id ≠ pid) ∧
        (∀ p ∈ (applyRemove i s).tempPhotos, p.id ≠ pid) ∧
        (applyRemove i s).subTaskPhotos = s.subTaskPhotos
     | .subTaskDraft gid pid =>
        (applyRemove i s).subTaskPhotos gid =
          (s.subTaskPhotos gid).filter (fun p => p.id ≠ pid) ∧
        (∀ p ∈ (applyRemove i s).subTaskPhotos gid, p.id ≠ pid) ∧
        (∀ k, k ≠ gid → (applyRemove i s).subTaskPhotos k = s.subTaskPhotos k) ∧
        (applyRemove i s).tempPhotos = s.tempPhotos) := by
  cases i with
  | temp pid =>
    refine ⟨rfl, rfl, rfl, ?_, rfl⟩
    intro p hp
    simpa using (List.mem_filter.1 hp).2
  | subTaskDraft gid pid =>
    refine ⟨rfl, rfl, by simp [applyRemove], ?_, ?_, rfl⟩
    · intro p hp
      simp only [applyRemove, if_pos rfl] at hp
      simpa using (List.mem_filter.1 hp).2
    · intro k hk
      simp [applyRemove, hk]

/-- Closed instance of `C3_removePhoto` at the draft photo list. -/
theorem C3_removePhoto_witness :
    (applyRemove (.temp "p1") uiState0).goals = uiState0.goals ∧
    (applyRemove (.temp "p1") uiState0).tempPhotos =
      uiState0.tempPhotos.filter (fun p => p.id ≠ "p1") :=
  ⟨(C3_removePhoto (.temp "p1") uiState0).1,
   (C3_removePhoto (.temp "p1") uiState0).2.2.1⟩

/-- C4 (counterexample): ids come from `Math.random` with no collision
check; two `addGoal` calls that draw the same id string leave two goals
with duplicate ids, so the uniqueness claim does not hold unconditionally. -/
theorem C4_counterexample :
    (addGoalSeq [("A", [], "dup", 0), ("B", [], "dup", 1)] []).length = 2 ∧
    ¬ ((addGoalSeq [("A", [], "dup", 0), ("B", [], "dup", 1)] []).map
        (fun g => g.id)).Nodup := by
  decide

/-- The ids after a run of successful `addGoal` calls are the generated ids,
newest first, in front of the previous ids. -/
theorem addGoalSeq_map_id (calls : List (String × List Photo × String × Nat))
    (goals : List BigGoal)
    (htitles : ∀ cl ∈ calls, jsTrim cl.1 ≠ "") :
    (addGoalSeq calls goals).map (fun g => g.id) =
      (calls.map fun cl => cl.2.2.1).reverse ++ goals.map (fun g => g.id) := by
  induction calls generalizing goals with
  | nil => simp [addGoalSeq]
  | cons c cs ih =>
    have hstep : addGoalSeq (c :: cs) goals =
        addGoalSeq cs (addGoal c.1 c.2.1 c.2.2.1 c.2.2.2 goals) := rfl
    rw [hstep, ih _ fun cl hcl => htitles cl (List.mem_cons_of_mem c hcl)]
    rw [addGoal, if_neg (htitles c (List.mem_cons_self c cs))]
    simp

/-- C4 (amended): uniqueness holds exactly as far as the id generator does:
after N `addGoal` calls with nonempty trimmed titles and pairwise-distinct
generated ids, starting from the empty store, the goal sequence holds N
goals whose ids are pairwise distinct.  The store itself performs no
collision check (see the counterexample). -/
theorem C4_unique_ids (calls : List (String × List Photo × String × Nat))
    (htitles : ∀ cl ∈ calls, jsTrim cl.1 ≠ "")
    (hids : (calls.map fun cl => cl.2.2.1).Nodup) :
    (addGoalSeq calls []).length = calls.length ∧
    ((addGoalSeq calls []).map fun g => g.id).Nodup := by
  have hmap := addGoalSeq_map_id calls [] htitles
  refine ⟨?_, ?_⟩
  · have hlen := congrArg List.length hmap
    simpa using hlen
  · rw [hmap]
    simpa [List.nodup_reverse] using hids

/-- Closed instance of `C4_unique_ids`: two calls with distinct ids. -/
theorem C4_unique_ids_witness :
    (addGoalSeq [("A", [], "i1", 0), ("B", [], "i2", 1)] []).length = 2 ∧
    ((addGoalSeq [("A", [], "i1", 0), ("B", [], "i2", 1)] []).map
      fun g => g.id).Nodup :=
  C4_unique_ids [("A", [], "i1", 0), ("B", [], "i2", 1)] (by decide) (by decide)

/-- C5: `addGoal` is a no-op when the trimmed title is empty; otherwise it
prepends a goal with `completed := false`, no subtasks, the given photos and
the untrimmed title. -/
theorem C5_addGoal (title : String) (photos : List Photo) (fid : String)
    (t : Nat) (goals : List BigGoal) :
    (jsTrim title = "" → addGoal title photos fid t goals = goals) ∧
    (jsTrim title ≠ "" → addGoal title photos fid t goals =
      { id := fid, title := title, completed := false, photos := photos,
        subTasks := [], createdAt := t } :: goals) := by
  constructor <;> intro h <;> simp [addGoal, h]

/-- Closed instance of `C5_addGoal`: a whitespace title is rejected, a real
title is prepended. -/
theorem C5_addGoal_witness :
    addGoal "  " [photoP1] "i" 0 [] = [] ∧
    addGoal "A" [photoP1] "i" 0 [] =
      [{ id := "i", title := "A", completed := false, photos := [photoP1],
         subTasks := [], createdAt := 0 }] :=
  ⟨(C5_addGoal "  " [photoP1] "i" 0 []).1 (by decide),
   (C5_addGoal "A" [photoP1] "i" 0 []).2 (by decide)⟩

/-- C2: upsert invariant for a fixed date `D`.  From a state with at most one
entry for `D` (the invariant the store maintains): (1) any nonempty run of
valid saves leaves exactly one entry dated `D`; (2) a valid save while an
entry for `D` sits at position `i` replaces that position in place, keeping
the old id (so the sequence keeps its length and every other position is
untouched); (3) only when no entry for `D` exists does a valid save prepend
an entry with the fresh id. -/
theorem C2_upsert (D : String) (entries : List DiaryEntry)
    (hinv : entries.countP (fun e => e.date == D) ≤ 1) :
    (∀ calls : List (String × List Photo × String × Nat), calls ≠ [] →
      (∀ cl ∈ calls, ¬(jsTrim cl.1 = "" ∧ cl.2.1.length = 0)) →
      (saveSeq D calls entries).countP (fun e => e.date == D) = 1) ∧
    (∀ (c : String) (p : List Photo) (fid : String) (t : Nat),
      ¬(jsTrim c = "" ∧ p.length = 0) →
      ∀ (i : Nat) (hi : i < entries.length), (entries.get ⟨i, hi⟩).date = D →
        saveDiaryEntry D c p fid t entries =
          entries.set i
            { id := (entries.get ⟨i, hi⟩).id, content := c, photos := p,
              date := D, createdAt := t }) ∧
    (∀ (c : String) (p : List Photo) (fid : String) (t : Nat),
      ¬(jsTrim c = "" ∧ p.length = 0) → (∀ e ∈ entries, e.date ≠ D) →
      saveDiaryEntry D c p fid t entries =
        { id := fid, content := c, photos := p, date := D, createdAt := t }
          :: entries) := by
  refine ⟨fun calls hne hva => saveSeq_countP_eq_one D calls entries hne hva hinv,
    fun c p fid t hv i hi hdate => ?_,
    fun c p fid t hv hnone => save_of_not_found D c p fid t entries hv hnone⟩
  have hidx : entries.findIdx (fun e => e.date == D) = i :=
    findIdx_eq_of_unique D entries i hi hdate hinv
  have hlt : entries.findIdx (fun e => e.date == D) < entries.length := by
    rw [hidx]; exact hi
  rw [save_of_found D c p fid t entries hv hlt]
  subst hidx
  rfl

/-- Closed instance of `C2_upsert`: re-saving 2024-01-15 keeps one entry with
the old id in place; saving a fresh date prepends with the fresh id. -/
theorem C2_upsert_witness :
    (saveSeq "2024-01-15" [("two hours", [], "id2", 9)] [entryJan]).countP
      (fun e => e.date == "2024-01-15") = 1 ∧
    saveDiaryEntry "2024-01-15" "two hours" [] "id2" 9 [entryJan] =
      [{ id := "e1", content := "two hours", photos := [], date := "2024-01-15",
         createdAt := 9 }] ∧
    saveDiaryEntry "2024-01-16" "hello" [] "id3" 9 [] =
      [{ id := "id3", content := "hello", photos := [], date := "2024-01-16",
         createdAt := 9 }] := by
  refine ⟨(C2_upsert "2024-01-15" [entryJan] (by decide)).1
      [("two hours", [], "id2", 9)] (by decide) (by decide), ?_,
    (C2_upsert "2024-01-16" [] (by decide)).2.2 "hello" [] "id3" 9
      (by decide) (by decide)⟩
  have h := (C2_upsert "2024-01-15" [entryJan] (by decide)).2.1 "two hours" [] "id2" 9
    (by decide) 0 (by decide) (by decide)
  simpa [entryJan] using h

/-- C6: each successful `addGoal` prepends (two adds leave the newer goal
first), and each successful `addSubTask` appends (two adds on the same goal
leave the subtasks in call order at the back of the subtask sequence). -/
theorem C6_ordering (tA tB gid t1 t2 : String) (pA pB p1 p2 : List Photo)
    (iA iB i1 i2 : String) (nA nB n1 n2 : Nat) (goals : List BigGoal) :
    (jsTrim tA ≠ "" → jsTrim tB ≠ "" →
      addGoal tB pB iB nB (addGoal tA pA iA nA goals) =
        { id := iB, title := tB, completed := false, photos := pB,
          subTasks := [], createdAt := nB } ::
        { id := iA, title := tA, completed := false, photos := pA,
          subTasks := [], createdAt := nA } :: goals) ∧
    (jsTrim t1 ≠ "" → jsTrim t2 ≠ "" →
      addSubTask gid t2 p2 i2 n2 (addSubTask gid t1 p1 i1 n1 goals) =
        goals.map fun g =>
          if g.id = gid then
            { g with subTasks := g.subTasks ++
                [{ id := i1, title := t1, completed := false, photos := p1,
                   createdAt := n1 },
                 { id := i2, title := t2, completed := false, photos := p2,
                   createdAt := n2 }] }
          else g) := by
  constructor
  · intro hA hB
    simp [addGoal, hA, hB]
  · intro h1 h2
    rw [addSubTask, if_neg h2, addSubTask, if_neg h1, List.map_map]
    refine List.map_congr_left fun g _ => ?_
    by_cases hgid : g.id = gid
    · obtain ⟨a, b, c, d, s, e⟩ := g
      have ha : a = gid := hgid
      subst ha
      simp [List.append_assoc]
    · simp [hgid]

/-- Closed instance of `C6_ordering`. -/
theorem C6_ordering_witness :
    addGoal "B" [] "ib" 1 (addGoal "A" [] "ia" 0 []) =
      [{ id := "ib", title := "B", completed := false, photos := [],
         subTasks := [], createdAt := 1 },
       { id := "ia", title := "A", completed := false, photos := [],
         subTasks := [], createdAt := 0 }] ∧
    addSubTask "g1" "second" [] "s2" 3 (addSubTask "g1" "first" [] "s1" 2 [goalEmpty]) =
      [{ id := "g1", title := "Learn piano", completed := false, photos := [],
         subTasks :=
           [{ id := "s1", title := "first", completed := false, photos := [],
              createdAt := 2 },
            { id := "s2", title := "second", completed := false, photos := [],
              createdAt := 3 }],
         createdAt := 0 }] := by
  refine ⟨(C6_ordering "A" "B" "g1" "x" "y" [] [] [] [] "ia" "ib" "u1" "u2"
      0 1 0 0 []).1 (by decide) (by decide), ?_⟩
  have h := (C6_ordering "A" "B" "g1" "first" "second" [] [] [] [] "ia" "ib"
    "s1" "s2" 0 1 2 3 [goalEmpty]).2 (by decide) (by decide)
  simpa [goalEmpty] using h

/-- C7: `toggleGoal` and `toggleSubTask` negate the targeted `completed`
flag (pointwise: the flag flips exactly on an id match), are no-ops when the
target id is not present, and applying either twice restores the original
state. -/
theorem C7_toggle (gid sid : String) (goals : List BigGoal) :
    List.Forall₂ (fun g2 g : BigGoal =>
        g2.completed = (if g.id = gid then !g.completed else g.completed))
      (toggleGoal gid goals) goals ∧
    ((∀ g ∈ goals, g.id ≠ gid) → toggleGoal gid goals = goals) ∧
    toggleGoal gid (toggleGoal gid goals) = goals ∧
    List.Forall₂ (fun g2 g : BigGoal =>
        List.Forall₂ (fun st2 st : SubTask =>
            st2.completed =
              (if g.id = gid ∧ st.id = sid then !st.completed else st.completed))
          g2.subTasks g.subTasks)
      (toggleSubTask gid sid goals) goals ∧
    ((∀ g ∈ goals, g.id = gid → ∀ st ∈ g.subTasks, st.id ≠ sid) →
      toggleSubTask gid sid goals = goals) ∧
    toggleSubTask gid sid (toggleSubTask gid sid goals) = goals :=
  ⟨(toggleGoal_pointwise gid goals).imp fun _ _ h => h.2.2.2.2.2,
   toggleGoal_not_found gid goals,
   toggleGoal_involutive gid goals,
   (toggleSubTask_pointwise gid sid goals).imp fun _ _ h =>
     h.2.2.2.2.2.imp fun _ _ hs => hs.2.2.2.2,
   toggleSubTask_not_found gid sid goals,
   toggleSubTask_involutive gid sid goals⟩

/-- Closed instance of `C7_toggle`: unknown ids are no-ops. -/
theorem C7_toggle_witness :
    toggleGoal "zz" [goalG1] = [goalG1] ∧
    toggleSubTask "g1" "zz" [goalG1] = [goalG1] :=
  ⟨(C7_toggle "zz" "s1" [goalG1]).2.1 (by decide),
   (C7_toggle "g1" "zz" [goalG1]).2.2.2.2.1 (by decide)⟩

/-- C8: no completion rollup in either direction.  `toggleSubTask` keeps
every goal's own `completed` flag (and all other goal fields) and flips only
the targeted subtask's flag, leaving every other subtask intact; `toggleGoal`
never changes any subtask list. -/
theorem C8_no_rollup (gid sid : String) (goals : List BigGoal) :
    List.Forall₂ (fun g2 g : BigGoal =>
        g2.id = g.id ∧ g2.title = g.title ∧ g2.photos = g.photos ∧
        g2.createdAt = g.createdAt ∧ g2.completed = g.completed ∧
        List.Forall₂ (fun st2 st : SubTask =>
            st2.id = st.id ∧ st2.title = st.title ∧ st2.photos = st.photos ∧
            st2.createdAt = st.createdAt ∧
            st2.completed =
              (if g.id = gid ∧ st.id = sid then !st.completed else st.completed))
          g2.subTasks g.subTasks)
      (toggleSubTask gid sid goals) goals ∧
    List.Forall₂ (fun g2 g : BigGoal => g2.subTasks = g.subTasks)
      (toggleGoal gid goals) goals :=
  ⟨toggleSubTask_pointwise gid sid goals,
   (toggleGoal_pointwise gid goals).imp fun _ _ h => h.2.2.2.1⟩

/-- C9: the save guard.  A save is a no-op exactly when the trimmed content
is empty and the photo list is empty; when either is nonempty the save
proceeds and the store afterwards holds an entry for the selected date
carrying the given content, photos and timestamp. -/
theorem C9_save_guard (D c : String) (p : List Photo) (fid : String) (t : Nat)
    (entries : List DiaryEntry) :
    (jsTrim c = "" ∧ p.length = 0 → saveDiaryEntry D c p fid t entries = entries) ∧
    (¬(jsTrim c = "" ∧ p.length = 0) →
      ∃ e ∈ saveDiaryEntry D c p fid t entries,
        e.date = D ∧ e.content = c ∧ e.photos = p ∧ e.createdAt = t) := by
  constructor
  · intro h
    simp [saveDiaryEntry, h]
  · intro hv
    by_cases hlt : entries.findIdx (fun e => e.date == D) < entries.length
    · rw [save_of_found D c p fid t entries hv hlt]
      refine ⟨{ id := (entries.get ⟨entries.findIdx (fun e => e.date == D), hlt⟩).id,
                content := c, photos := p, date := D, createdAt := t },
        mem_set_self entries _ _ hlt, rfl, rfl, rfl, rfl⟩
    · have hnone : ∀ e ∈ entries, e.date ≠ D := by
        intro e he hcontra
        exact hlt (List.findIdx_lt_length.2 ⟨e, he, by simpa using hcontra⟩)
      rw [save_of_not_found D c p fid t entries hv hnone]
      exact ⟨_, List.mem_cons_self _ _, rfl, rfl, rfl, rfl⟩

/-- Closed instance of `C9_save_guard`: an all-empty draft is rejected, a
photo-only draft is saved. -/
theorem C9_save_guard_witness :
    saveDiaryEntry "2024-01-15" "  " [] "i" 0 [entryJan] = [entryJan] ∧
    ∃ e ∈ saveDiaryEntry "2024-01-16" "" [photoP1] "i" 0 [],
      e.date = "2024-01-16" ∧ e.content = "" ∧ e.photos = [photoP1] ∧
      e.createdAt = 0 :=
  ⟨(C9_save_guard "2024-01-15" "  " [] "i" 0 [entryJan]).1 (by decide),
   (C9_save_guard "2024-01-16" "" [photoP1] "i" 0 []).2 (by decide)⟩

/-- C10: in the upsert case only the id survives from the replaced entry.
The stored entry carries the new content and photos and, in particular, the
save-time `createdAt` stamp `t` — the original entry's `createdAt` is not
kept. -/
theorem C10_upsert_createdAt (D c : String) (p : List Photo) (fid : String)
    (t : Nat) (entries : List DiaryEntry)
    (hinv : entries.countP (fun e => e.date == D) ≤ 1)
    (hv : ¬(jsTrim c = "" ∧ p.length = 0))
    (e : DiaryEntry) (he : e ∈ entries) (hd : e.date = D) :
    ∃ e2 ∈ saveDiaryEntry D c p fid t entries,
      e2.id = e.id ∧ e2.content = c ∧ e2.photos = p ∧ e2.date = D ∧
      e2.createdAt = t := by
  obtain ⟨⟨i, hi⟩, rfl⟩ := List.mem_iff_get.1 he
  have hidx : entries.findIdx (fun x => x.date == D) = i :=
    findIdx_eq_of_unique D entries i hi hd hinv
  have hlt : entries.findIdx (fun x => x.date == D) < entries.length := by
    rw [hidx]; exact hi
  rw [save_of_found D c p fid t entries hv hlt]
  subst hidx
  exact ⟨{ id := (entries.get ⟨entries.findIdx (fun x => x.date == D), hlt⟩).id,
           content := c, photos := p, date := D, createdAt := t },
    mem_set_self entries _ _ hlt, rfl, rfl, rfl, rfl, rfl⟩

/-- Closed instance of `C10_upsert_createdAt`: re-saving 2024-01-15 at time
99 keeps id `e1` but stamps `createdAt := 99`, not the original 5. -/
theorem C10_upsert_createdAt_witness :
    ∃ e2 ∈ saveDiaryEntry "2024-01-15" "updated" [] "idX" 99 [entryJan],
      e2.id = "e1" ∧ e2.content = "updated" ∧ e2.photos = [] ∧
      e2.date = "2024-01-15" ∧ e2.createdAt = 99 := by
  have h := C10_upsert_createdAt "2024-01-15" "updated" [] "idX" 99 [entryJan]
    (by decide) (by decide) entryJan (List.mem_cons_self _ _) (by decide)
  simpa [entryJan] using h

end Chronicle
